import Mathlib

/-
  Verification development for the firebase-etl pipeline.

  The Python values flowing through the pipeline are modelled by the
  variant type `ETL.Value`.  Pure helper functions of
  `user_transformer.py` (`_safe_isna`, `_clean_nan_values`,
  `_clean_string_field`, `_parse_datetime`, `_parse_interests`,
  `_normalize_status`, `transform_single_user`,
  `detect_and_remove_duplicates`, `transform_users_list`), the conflict
  resolution loop of `main.py`, and the per-record load loop of
  `postgres_loader.py` are translated as Lean functions; raising code
  paths are embedded through the `Except` monad.  Two raise sites are
  live: the explicit `ValueError("Email is required but missing")` of
  `transform_single_user`, discharged by its own handlers exactly as the
  Python try/except does, and the unguarded line-92 `pd.isna(value)`
  check of `_parse_datetime`, which raises the ndarray-ambiguity
  ValueError when the cleaned value is a list of two or more elements
  (`pd.isna` of a multi-element object array is elementwise, and Python
  then truth-tests the resulting array).  That error is caught by
  `transform_single_user`'s generic handler but propagates uncaught out
  of `detect_and_remove_duplicates`, which has no try/except around its
  line-283 `.apply(_parse_datetime)`.

  Modelling notes:
  * pandas `pd.isna` applied elementwise to a list is modelled on
    1-dimensional object arrays: nested list/dict elements count as
    opaque non-NA objects; multi-dimensional coercion of rectangular
    nested lists is not modelled.
  * floats are modelled as NaN (`Value.nan`) plus integral numbers
    (`Value.int`); non-integral finite floats are not modelled.
  * `bool(...)` truthiness is modelled as total; `pd.NaT` is modelled as
    truthy like a generic object.
  * `datetime.fromtimestamp` is modelled in UTC via the civil-from-days
    algorithm; epochs past year 9999 overflow `datetime` and the
    guarding try/except returns None (the value stays unparseable), so
    the model caps the accepted seconds at 253402300799; `strptime`
    field matching is modelled as digit-field parsing with the range
    checks CPython performs; the final
    `pd.to_datetime(value, errors="coerce")` fallback for strings
    outside the five explicit formats is modelled as unparseable.
  * the truth test of a 0- or 1-element ndarray does not raise; the
    model follows the scalar/empty truthiness numpy implements there
    (an empty array tests False), so only multi-element arrays raise.
  * `str(...)` of lists and dicts is modelled with a simplified repr of
    the elements (quotes around strings, no escaping inside them).
-/

namespace ETL

/-- A Python `datetime` value (naive), with microseconds. -/
structure DT where
  year : Nat
  month : Nat
  day : Nat
  hour : Nat
  minute : Nat
  second : Nat
  micro : Nat
deriving DecidableEq, Repr

mutual
/-- Variant model of the loosely typed Python/pandas values seen by the
pipeline: native `None`, float NaN, pandas NaT, booleans, integers,
strings, `datetime` objects (year/month/day/hour/minute/second/micro),
Firebase timestamp wrappers exposing a nonnegative `seconds` attribute,
lists, and string-keyed mappings. -/
inductive Value where
  | none
  | nan
  | nat
  | bool (b : Bool)
  | int (n : Int)
  | str (s : String)
  | dt (d : DT)
  | timestamp (seconds : Nat)
  | list (xs : VList)
  | dict (fields : VFields)
deriving DecidableEq, Repr

/-- Lists of `Value` (element lists of Python lists / numpy arrays). -/
inductive VList where
  | nil
  | cons (head : Value) (tail : VList)
deriving DecidableEq, Repr

/-- String-keyed field lists of Python dicts nested inside values. -/
inductive VFields where
  | nil
  | cons (key : String) (val : Value) (tail : VFields)
deriving DecidableEq, Repr
end

/-- View a `VList` as an ordinary Lean list. -/
def VList.toList : VList → List Value
  | .nil => []
  | .cons x xs => x :: xs.toList

/-- Build a `VList` from an ordinary Lean list. -/
def VList.ofList : List Value → VList
  | [] => .nil
  | x :: xs => .cons x (VList.ofList xs)

theorem VList.toList_ofList (l : List Value) : (VList.ofList l).toList = l := by
  induction l with
  | nil => rfl
  | cons x xs ih => simp [VList.ofList, VList.toList, ih]

/-
  Kernel-reducible models of the Python string primitives used by the
  pipeline (`str.strip`, `str.lower`, `str.upper`, `str.split` on a
  single-character separator, `str.endswith`, membership, digit
  parsing).  They are defined over the character list so that concrete
  runs evaluate by `decide`.
-/

/-- Python `str.strip()`: drop leading and trailing whitespace. -/
def py_strip (s : String) : String :=
  ⟨((s.data.dropWhile Char.isWhitespace).reverse.dropWhile
      Char.isWhitespace).reverse⟩

/-- Python `str.lower()` (ASCII case folding). -/
def py_lower (s : String) : String :=
  ⟨s.data.map Char.toLower⟩

/-- Python `str.upper()` (ASCII case folding). -/
def py_upper (s : String) : String :=
  ⟨s.data.map Char.toUpper⟩

/-- Helper for `split_char`: walk the characters, cutting at `c`. -/
def split_char_aux (c : Char) : List Char → List Char → List String
  | [], acc => [⟨acc.reverse⟩]
  | x :: xs, acc =>
      if x = c then ⟨acc.reverse⟩ :: split_char_aux c xs []
      else split_char_aux c xs (x :: acc)

/-- Python `str.split(c)` for a single-character separator (also the
behaviour of `strptime` literal-separator matching used below). -/
def split_char (c : Char) (s : String) : List String :=
  split_char_aux c s.data []

/-- Python `str.endswith(c)` for a single character. -/
def ends_with_char (c : Char) (s : String) : Bool :=
  match s.data.getLast? with
  | some x => x = c
  | _ => false

/-- Drop the final character (`s[:-1]`). -/
def drop_last_char (s : String) : String :=
  ⟨s.data.dropLast⟩

/-- Python `c in s` for a single character. -/
def contains_char (c : Char) (s : String) : Bool :=
  s.data.any (· = c)

/-- Parse a nonempty all-digit string as a natural number. -/
def digits_to_nat? (s : String) : Option Nat :=
  if s.data ≠ [] ∧ s.data.all Char.isDigit then
    some (s.data.foldl (fun a c => a * 10 + (c.toNat - 48)) 0)
  else Option.none

/-- Scalar semantics of `pd.isna`: true exactly for `None`, float NaN and
`NaT`; containers and other objects count as non-NA scalars. -/
def pd_isna_scalar : Value → Bool
  | .none => true
  | .nan => true
  | .nat => true
  | _ => false

/-- `UserTransformerService._safe_isna` (user_transformer.py:45-61):
`None` is empty; a list/array is empty when `pd.isna(value).all()`, i.e.
every element is elementwise NA (vacuously true for `[]`); any other
value is empty exactly when scalar `pd.isna` holds of it. -/
def safe_isna : Value → Bool
  | .none => true
  | .list xs => xs.toList.all pd_isna_scalar
  | v => pd_isna_scalar v

mutual
/-- `UserTransformerService._clean_nan_values` (user_transformer.py:63-81):
collapse values classified empty by `_safe_isna` to `None`; for a
surviving list, drop the elementwise-NA elements and clean the survivors
recursively; anything else passes through unchanged. -/
def clean_nan_values (v : Value) : Value :=
  if safe_isna v then .none
  else
    match v with
    | .list xs => .list (clean_nan_vlist xs)
    | w => w

/-- The list comprehension inside `_clean_nan_values`:
`[clean(item) for item in value if not safe_isna(item)]`. -/
def clean_nan_vlist : VList → VList
  | .nil => .nil
  | .cons x xs =>
      if safe_isna x then clean_nan_vlist xs
      else .cons (clean_nan_values x) (clean_nan_vlist xs)
end

/-- Left-pad the decimal form of `n` with zeros to width 2. -/
def pad2 (n : Nat) : String :=
  if n < 10 then "0" ++ toString n else toString n

/-- Left-pad the decimal form of `n` with zeros to width 4. -/
def pad4 (n : Nat) : String :=
  if n < 10 then "000" ++ toString n
  else if n < 100 then "00" ++ toString n
  else if n < 1000 then "0" ++ toString n
  else toString n

/-- Left-pad the decimal form of `n` with zeros to width 6. -/
def pad6 (n : Nat) : String :=
  if n < 10 then "00000" ++ toString n
  else if n < 100 then "0000" ++ toString n
  else if n < 1000 then "000" ++ toString n
  else if n < 10000 then "00" ++ toString n
  else if n < 100000 then "0" ++ toString n
  else toString n

/-- `str(...)` of a Python `datetime`: ISO-like with a space separator,
with the microsecond part printed only when nonzero. -/
def dt_str (d : DT) : String :=
  pad4 d.year ++ "-" ++ pad2 d.month ++ "-" ++ pad2 d.day ++ " " ++
    pad2 d.hour ++ ":" ++ pad2 d.minute ++ ":" ++ pad2 d.second ++
    (if d.micro = 0 then "" else "." ++ pad6 d.micro)

mutual
/-- Python `str(value)` over the modelled variants.  Scalars follow
CPython exactly (`None`, `nan`, `NaT`, `True`/`False`, decimal ints, the
string itself, datetime ISO form); containers use a simplified repr of
their elements; the Firebase timestamp wrapper gets an opaque repr. -/
def py_str : Value → String
  | .none => "None"
  | .nan => "nan"
  | .nat => "NaT"
  | .bool b => if b then "True" else "False"
  | .int n => toString n
  | .str s => s
  | .dt d => dt_str d
  | .timestamp s => "Timestamp(seconds=" ++ toString s ++ ")"
  | .list xs => "[" ++ py_str_vlist xs ++ "]"
  | .dict fs => "\x7b" ++ py_str_vfields fs ++ "\x7d"

/-- Comma-separated reprs of list elements (strings quoted). -/
def py_str_vlist : VList → String
  | .nil => ""
  | .cons x xs =>
      let rx := match x with
        | .str s => "\x27" ++ s ++ "\x27"
        | w => py_str w
      match xs with
      | .nil => rx
      | .cons y ys => rx ++ ", " ++ py_str_vlist (.cons y ys)

/-- Comma-separated `key: value` reprs of dict fields. -/
def py_str_vfields : VFields → String
  | .nil => ""
  | .cons k v fs =>
      let rv := match v with
        | .str s => "\x27" ++ s ++ "\x27"
        | w => py_str w
      let item := "\x27" ++ k ++ "\x27: " ++ rv
      match fs with
      | .nil => item
      | .cons k2 v2 fs2 => item ++ ", " ++ py_str_vfields (.cons k2 v2 fs2)
end

/-- Python truthiness `bool(value)` over the modelled variants.  `NaT`
truthiness is modelled as object-default `True` (see header note). -/
def py_bool : Value → Bool
  | .none => false
  | .nan => true
  | .nat => true
  | .bool b => b
  | .int n => n != 0
  | .str s => s != ""
  | .dt _ => true
  | .timestamp _ => true
  | .list .nil => false
  | .list (.cons _ _) => true
  | .dict .nil => false
  | .dict (.cons _ _ _) => true

/-- Python short-circuit `a or b`: `a` when truthy, else `b`. -/
def py_or (a b : Value) : Value :=
  if py_bool a then a else b

/-- The tail of `_clean_string_field` (user_transformer.py:224-234):
`str(value).strip()`, collapsed to `None` when empty or a
case-insensitive null sentinel. -/
def strip_or_none (u : Value) : Option String :=
  let s := py_strip (py_str u)
  if s = "" ∨ py_lower s ∈ ["nan", "null", "none", "", "nat"] then Option.none
  else some s

/-- `UserTransformerService._clean_string_field` (user_transformer.py:204-234):
clean NA values first; for a list take the first elementwise non-NA
element (or fail); stringify, strip, and collapse null sentinels. -/
def clean_string_field (v : Value) : Option String :=
  match clean_nan_values v with
  | .none => Option.none
  | .list xs =>
      match xs.toList.find? (fun x => !safe_isna x) with
      | Option.none => Option.none
      | some item => strip_or_none item
  | w => strip_or_none w

/-- Gregorian month lengths, with leap-year handling for February. -/
def days_in_month (y m : Nat) : Nat :=
  if m = 2 then (if (y % 4 = 0 ∧ y % 100 ≠ 0) ∨ y % 400 = 0 then 29 else 28)
  else if m = 4 ∨ m = 6 ∨ m = 9 ∨ m = 11 then 30 else 31

/-- `strptime` date part `%Y-%m-%d`: a 4-digit year, 1-2 digit month and
day, validated against the calendar. -/
def parse_ymd (s : String) : Option (Nat × Nat × Nat) :=
  match split_char '-' s with
  | [ys, ms, ds] => do
      guard (ys.length = 4)
      let y ← digits_to_nat? ys
      guard (ms.length ≤ 2)
      let m ← digits_to_nat? ms
      guard (ds.length ≤ 2)
      let d ← digits_to_nat? ds
      guard (1 ≤ m ∧ m ≤ 12 ∧ 1 ≤ d ∧ d ≤ days_in_month y m)
      pure (y, m, d)
  | _ => Option.none

/-- `strptime` time part `%H:%M:%S`: 1-2 digit fields with the CPython
range checks. -/
def parse_hms (s : String) : Option (Nat × Nat × Nat) :=
  match split_char ':' s with
  | [hs, ms, ss] => do
      guard (hs.length ≤ 2)
      let h ← digits_to_nat? hs
      guard (ms.length ≤ 2)
      let mi ← digits_to_nat? ms
      guard (ss.length ≤ 2)
      let sec ← digits_to_nat? ss
      guard (h ≤ 23 ∧ mi ≤ 59 ∧ sec ≤ 59)
      pure (h, mi, sec)
  | _ => Option.none

/-- `strptime` fractional part `%f`: 1-6 digits, scaled to microseconds. -/
def parse_micro (fs : String) : Option Nat := do
  guard (1 ≤ fs.length ∧ fs.length ≤ 6)
  let f ← digits_to_nat? fs
  pure (f * 10 ^ (6 - fs.length))

/-- Format `%Y-%m-%d %H:%M:%S`. -/
def parse_fmt_space (s : String) : Option DT :=
  match split_char ' ' s with
  | [ds, ts] => do
      let (y, m, d) ← parse_ymd ds
      let (h, mi, sec) ← parse_hms ts
      pure ⟨y, m, d, h, mi, sec, 0⟩
  | _ => Option.none

/-- Format `%Y-%m-%dT%H:%M:%S`. -/
def parse_fmt_t (s : String) : Option DT :=
  match split_char 'T' s with
  | [ds, ts] => do
      let (y, m, d) ← parse_ymd ds
      let (h, mi, sec) ← parse_hms ts
      pure ⟨y, m, d, h, mi, sec, 0⟩
  | _ => Option.none

/-- Format `%Y-%m-%dT%H:%M:%S.%f`. -/
def parse_fmt_t_frac (s : String) : Option DT :=
  match split_char 'T' s with
  | [ds, ts] =>
      match split_char '.' ts with
      | [hms, frac] => do
          let (y, m, d) ← parse_ymd ds
          let (h, mi, sec) ← parse_hms hms
          let mic ← parse_micro frac
          pure ⟨y, m, d, h, mi, sec, mic⟩
      | _ => Option.none
  | _ => Option.none

/-- Format `%Y-%m-%dT%H:%M:%SZ`. -/
def parse_fmt_t_z (s : String) : Option DT :=
  match split_char 'T' s with
  | [ds, ts] => do
      guard (ends_with_char 'Z' ts)
      let (y, m, d) ← parse_ymd ds
      let (h, mi, sec) ← parse_hms (drop_last_char ts)
      pure ⟨y, m, d, h, mi, sec, 0⟩
  | _ => Option.none

/-- Format `%Y-%m-%d`. -/
def parse_fmt_date (s : String) : Option DT := do
  let (y, m, d) ← parse_ymd s
  pure ⟨y, m, d, 0, 0, 0, 0⟩

/-- The five `strptime` formats of `_parse_datetime`, tried in order
(user_transformer.py:108-120). -/
def try_formats (s : String) : Option DT :=
  parse_fmt_space s <|> parse_fmt_t s <|> parse_fmt_t_frac s <|>
    parse_fmt_t_z s <|> parse_fmt_date s

/-- Civil date from days since the Unix epoch (Howard Hinnant's
`civil_from_days` algorithm), valid for nonnegative epochs. -/
def civil_from_days (days : Nat) : Nat × Nat × Nat :=
  let z := days + 719468
  let era := z / 146097
  let doe := z % 146097
  let yoe := (doe - doe / 1460 + doe / 36524 - doe / 146096) / 365
  let doy := doe - (365 * yoe + yoe / 4 - yoe / 100)
  let mp := (5 * doy + 2) / 153
  let d := doy - (153 * mp + 2) / 5 + 1
  let m := if mp < 10 then mp + 3 else mp - 9
  let y := yoe + era * 400 + (if m ≤ 2 then 1 else 0)
  (y, m, d)

/-- `datetime.fromtimestamp` modelled in UTC: split epoch seconds into
civil date and time of day. -/
def epoch_to_dt (s : Nat) (micro : Nat) : DT :=
  let days := s / 86400
  let rem := s % 86400
  let c := civil_from_days days
  ⟨c.1, c.2.1, c.2.2, rem / 3600, rem % 3600 / 60, rem % 60, micro⟩

/-- The exceptions that cross the modelled function boundaries: pydantic
`ValidationError` (a subclass caught first by `transform_single_user`)
and plain `ValueError`s — the explicit email raise, and the numpy
array-truth error escaping `_parse_datetime`. -/
inductive PyExc where
  | validationError (msg : String)
  | valueError (msg : String)
deriving DecidableEq, Repr

instance {ε α : Type} [DecidableEq ε] [DecidableEq α] :
    DecidableEq (Except ε α) := fun x y =>
  match x, y with
  | .ok a, .ok b =>
      if h : a = b then .isTrue (h ▸ rfl)
      else .isFalse (fun hc => h (Except.ok.inj hc))
  | .error a, .error b =>
      if h : a = b then .isTrue (h ▸ rfl)
      else .isFalse (fun hc => h (Except.error.inj hc))
  | .ok _, .error _ => .isFalse (fun hc => Except.noConfusion hc)
  | .error _, .ok _ => .isFalse (fun hc => Except.noConfusion hc)

/-- The numpy message raised when a multi-element boolean array is used
in a truth context; `_parse_datetime` hits it through
`if pd.isna(value):` (user_transformer.py:92) on a cleaned list of two
or more elements, with no surrounding try/except. -/
def ndarray_ambiguous_msg : String :=
  "The truth value of an array with more than one element is ambiguous. Use a.any() or a.all()"

/-- `datetime.fromtimestamp` under its try/except wrappers
(user_transformer.py:131-135 and 138-146): epochs past datetime's year
9999 (seconds above 253402300799, UTC-modelled) raise and are converted
to `None` by the handlers; in-range epochs convert via civil-from-days. -/
def from_timestamp? (s : Nat) (micro : Nat) : Option DT :=
  if s ≤ 253402300799 then some (epoch_to_dt s micro) else Option.none

/-- `UserTransformerService._parse_datetime` (user_transformer.py:83-148).
Clean NA values first.  The bare `if pd.isna(value):` at line 92 is NOT
under a try/except: on a cleaned list of two or more elements `pd.isna`
returns a multi-element boolean array whose truth test raises
`ValueError`, which propagates to the caller; an empty or one-element
cleaned list falls through every later branch to `None` (elements of a
cleaned list are never elementwise-NA, so a one-element array tests
false; the empty array's truth value is modelled as the legacy numpy
`False`).  Native datetimes pass through; strings reject null sentinels
then try the five formats in order (the broader `pd.to_datetime`
fallback is modelled as unparseable); objects with a `seconds`
attribute, and positive numbers (epoch milliseconds above `1e10`, else
epoch seconds, Python `True` counting as the integer 1), convert
through the guarded `fromtimestamp`; everything else is unparseable. -/
def parse_datetime (v : Value) : Except PyExc (Option DT) :=
  match clean_nan_values v with
  | .none => .ok Option.none
  | .nan => .ok Option.none
  | .nat => .ok Option.none
  | .list (.cons _ (.cons _ _)) => .error (.valueError ndarray_ambiguous_msg)
  | .list _ => .ok Option.none
  | .dt d => .ok (some d)
  | .str s =>
      let ls := py_lower (py_strip s)
      if ls ∈ ["nat", "none", "null", "", "nan"] then .ok Option.none
      else .ok (try_formats s)
  | .timestamp secs => .ok (from_timestamp? secs 0)
  | .int n =>
      if n > 0 then
        if n > 10000000000 then
          .ok (from_timestamp? (n / 1000).toNat ((n % 1000).toNat * 1000))
        else .ok (from_timestamp? n.toNat 0)
      else .ok Option.none
  | .bool b => if b then .ok (from_timestamp? 1 0) else .ok Option.none
  | .dict _ => .ok Option.none


/-- `UserTransformerService._parse_interests` (user_transformer.py:150-177):
lists are stringified elementwise with NA elements dropped (empty result
collapses to `None`); strings are stripped, null sentinels rejected,
comma-split into trimmed non-empty tokens or kept as one bare token;
other types are unparseable. -/
def parse_interests (v : Value) : Option (List String) :=
  match clean_nan_values v with
  | .none => Option.none
  | .list xs =>
      let cleaned := (xs.toList.filter (fun x => !safe_isna x)).map py_str
      if cleaned.isEmpty then Option.none else some cleaned
  | .str s0 =>
      let s := py_strip s0
      if s = "" ∨ py_lower s ∈ ["nan", "none", "null"] then Option.none
      else if contains_char ',' s then
        let items := ((split_char ',' s).map py_strip).filter (fun t => t ≠ "")
        if items.isEmpty then Option.none else some items
      else some [s]
  | _ => Option.none

/-- The target status enum. -/
inductive UserStatus where
  | ACTIVE
  | INACTIVE
  | BANNED
deriving DecidableEq, Repr

/-- The synonym table of `_normalize_status` (user_transformer.py:190-200). -/
def status_mapping : List (String × UserStatus) :=
  [("ACTIVE", .ACTIVE), ("ACTIF", .ACTIVE), ("ENABLED", .ACTIVE),
   ("INACTIVE", .INACTIVE), ("INACTIF", .INACTIVE), ("DISABLED", .INACTIVE),
   ("BANNED", .BANNED), ("BANNI", .BANNED), ("BLOCKED", .BANNED)]

/-- `UserTransformerService._normalize_status` (user_transformer.py:179-202):
clean NA values (empty defaults to ACTIVE), uppercase and strip the
string form, and look it up in the synonym table with default ACTIVE. -/
def normalize_status (v : Value) : UserStatus :=
  match clean_nan_values v with
  | .none => .ACTIVE
  | w =>
      let s := py_strip (py_upper (py_str w))
      ((status_mapping.find? (fun p => p.1 = s)).map Prod.snd).getD .ACTIVE

/-- A raw source record: a Python dict from field name to value.  An
absent key models an absent field. -/
abbrev RawRecord := List (String × Value)

/-- Python `raw.get(k, d)`: the first binding of `k`, or the default. -/
def raw_get (r : RawRecord) (k : String) (d : Value) : Value :=
  ((r.find? (fun p => p.1 = k)).map Prod.snd).getD d

/-- Python `raw.get(k)` with implicit `None` default. -/
def raw_getn (r : RawRecord) (k : String) : Value :=
  raw_get r k .none

/-- The validated target schema (`UserModel`, user_transformer.py:14-32). -/
structure UserModel where
  id : String
  email : String
  emailVerified : Bool
  password : Option String
  uid : Option String
  provider : String
  profilePic : Option String
  phoneNumber : Option String
  phoneVerified : Bool
  name : Option String
  city : Option String
  birthdate : Option DT
  photo : Option String
  createdAt : DT
  updatedAt : DT
  status : UserStatus
  interests : Option (List String)
  lastConnexion : Option DT
deriving DecidableEq, Repr

/-- One entry of `transformation_errors` (user_transformer.py:370-376,
382-389): the raw id and provider values, the error text, whether the
raw record had a truthy email, and the raw keys. -/
structure ErrorInfo where
  user_id : Value
  error : String
  provider : Value
  has_email : Bool
  raw_data_keys : List String
deriving DecidableEq, Repr

/-- The mutable counters of `UserTransformerService` threaded through the
transformer (`transformation_errors`, `successful_transformations`,
`failed_transformations`); the `deduplication_stats` member is modelled
as the second component of `detect_and_remove_duplicates`' result. -/
structure TState where
  transformation_errors : List ErrorInfo
  successful_transformations : Nat
  failed_transformations : Nat
deriving DecidableEq, Repr

/-- `UserTransformerService._reset_counters` (user_transformer.py:457-462). -/
def reset_counters : TState := ⟨[], 0, 0⟩

/-- The validated record `transform_single_user` constructs on success
(the `transformed_data` dict of user_transformer.py:328-347 with its
required-field fixups 354-362), given the already-settled email `em`
and the four datetime parse results (which are fallible and therefore
supplied by `transform_body`): an empty cleaned id is replaced by the
fresh uuid prefix, an empty cleaned provider by `"CREDENTIALS"`,
unparseable createdAt/updatedAt default to `now`, and every other field
is built by the matching normalizer over its aliased raw fields. -/
def build_user (now : DT) (fresh_id : String) (raw : RawRecord)
    (em : String) (birthdate createdAt0 updatedAt0 lastConnexion : Option DT) :
    UserModel :=
  { id := (clean_string_field (raw_get raw "id" (.str ""))).getD fresh_id,
    email := em,
    emailVerified := py_bool (raw_get raw "emailVerified" (.bool false)),
    password := clean_string_field (raw_getn raw "password"),
    uid := clean_string_field (raw_getn raw "uid"),
    provider := (clean_string_field (raw_get raw "provider" (.str "CREDENTIALS"))).getD "CREDENTIALS",
    profilePic := clean_string_field (py_or (raw_getn raw "profilePic") (raw_getn raw "profile_pic")),
    phoneNumber := clean_string_field (py_or (raw_getn raw "phoneNumber") (raw_getn raw "phone_number")),
    phoneVerified := py_bool (raw_get raw "phoneVerified" (.bool false)),
    name := clean_string_field (py_or (raw_getn raw "name") (raw_getn raw "displayName")),
    city := clean_string_field (raw_getn raw "city"),
    birthdate := birthdate,
    photo := clean_string_field (py_or (raw_getn raw "photo") (raw_getn raw "photoURL")),
    createdAt := createdAt0.getD now,
    updatedAt := updatedAt0.getD now,
    status := normalize_status (raw_getn raw "status"),
    interests := parse_interests (raw_getn raw "interests"),
    lastConnexion := lastConnexion }

/-- The `try:` body of `transform_single_user`
(user_transformer.py:326-366): build the transformed fields in the dict
literal's evaluation order — so a `_parse_datetime` raise on one of the
four datetime fields (birthDate line 340, createdAt 342, updatedAt 343,
lastConnexion 346; the first raise wins) aborts the construction —
then apply the Google-placeholder email rule, synthesize a fresh id
when empty, raise `ValueError` when the email is still empty, default
the provider, and construct the validated record.  `now` models
`datetime.now()` and `fresh_id` models `str(uuid.uuid4())[:20]`.  The
other field builders never raise, and in the modelled (well-typed)
field domain the final pydantic construction always succeeds, so the
body's errors are the datetime array-truth `ValueError` and the email
`ValueError`. -/
def transform_body (now : DT) (fresh_id : String) (raw : RawRecord) :
    Except PyExc UserModel := do
  let birthdate ← parse_datetime (py_or (raw_getn raw "birthDate") (raw_getn raw "birth_date"))
  let createdAt0 ← parse_datetime (py_or (raw_getn raw "createdAt") (raw_getn raw "created_at"))
  let updatedAt0 ← parse_datetime (py_or (raw_getn raw "updatedAt") (raw_getn raw "updated_at"))
  let lastConnexion ← parse_datetime (py_or (raw_getn raw "lastConnexion") (raw_getn raw "last_connexion"))
  let email0 := clean_string_field (raw_get raw "email" (.str ""))
  let email1 :=
    if email0 = Option.none ∧ raw_getn raw "provider" = Value.str "google.com" then
      some ("google_user_" ++ py_str (raw_get raw "uid" (.str "unknown")) ++ "@placeholder.com")
    else email0
  match email1 with
  | Option.none => Except.error (.valueError "Email is required but missing")
  | some em =>
      pure (build_user now fresh_id raw em birthdate createdAt0 updatedAt0 lastConnexion)

/-- The message recorded for an exception: a pydantic `ValidationError`
is recorded verbatim (`except ValidationError` branch), any other
exception with the `"Unexpected error: "` prefix (`except Exception`
branch, user_transformer.py:368-391). -/
def exc_message : PyExc → String
  | .validationError m => m
  | .valueError m => "Unexpected error: " ++ m

/-- The error dict both except handlers append
(user_transformer.py:370-376 and 382-389). -/
def error_entry (raw : RawRecord) (e : PyExc) : ErrorInfo :=
  { user_id := raw_get raw "id" (.str "unknown"),
    error := exc_message e,
    provider := raw_get raw "provider" (.str "unknown"),
    has_email := py_bool (raw_getn raw "email"),
    raw_data_keys := raw.map Prod.fst }

/-- `UserTransformerService.transform_single_user`
(user_transformer.py:322-392): run the body inside the try/except
boundary.  Success bumps the success counter and returns the record;
both failure paths bump the failure counter and append the error entry.
Nothing escapes. -/
def transform_single_user (now : DT) (fresh_id : String) (raw : RawRecord)
    (st : TState) : Option UserModel × TState :=
  match transform_body now fresh_id raw with
  | .ok u =>
      (some u, { st with successful_transformations := st.successful_transformations + 1 })
  | .error e =>
      (Option.none,
       { st with failed_transformations := st.failed_transformations + 1,
                 transformation_errors := st.transformation_errors ++ [error_entry raw e] })

/-- The loop body of `transform_users_list` (user_transformer.py:449-453),
with `fresh_ids i` modelling the uuid drawn for the i-th record. -/
def transform_users_loop (now : DT) (fresh_ids : Nat → String) :
    List RawRecord → Nat → TState → List UserModel × TState
  | [], _, st => ([], st)
  | r :: rs, i, st =>
      match transform_single_user now (fresh_ids i) r st with
      | (some u, st2) =>
          let rest := transform_users_loop now fresh_ids rs (i + 1) st2
          (u :: rest.1, rest.2)
      | (Option.none, st2) => transform_users_loop now fresh_ids rs (i + 1) st2

/-- `UserTransformerService.transform_users_list`
(user_transformer.py:443-455): reset the counters, then transform each
record in order, keeping the successes. -/
def transform_users_list (now : DT) (fresh_ids : Nat → String)
    (users : List RawRecord) : List UserModel × TState :=
  transform_users_loop now fresh_ids users 0 reset_counters

/-
  Deduplicator (`detect_and_remove_duplicates`, user_transformer.py:236-320),
  called with its default columns `duplicate_column="email"`,
  `sort_column="createdAt"`.  A DataFrame row is modelled by its three
  columns the function touches; `has_sort_col` models the
  `sort_column in df.columns` test; the pandas `sort_values` call is
  modelled by an arbitrary function satisfying `SortOk` (pandas only
  guarantees a sorted permutation: the default `quicksort` kind is
  documented as unstable).
-/

/-- One DataFrame row as seen by the deduplicator. -/
structure DRow where
  id : Value
  email : Value
  createdAt : Value
deriving DecidableEq, Repr

/-- `df[col] = df[col].apply(_clean_string_field)` on the email column. -/
def clean_email_row (r : DRow) : DRow :=
  { r with email := match clean_string_field r.email with
      | some s => Value.str s
      | Option.none => Value.none }

/-- The cleaning prefix of the deduplicator
(user_transformer.py:246-249): apply `_clean_string_field` to the email
column, then `dropna` the rows whose email became null. -/
def clean_and_drop (rows : List DRow) : List DRow :=
  (rows.map clean_email_row).filter (fun r => r.email ≠ Value.none)

/-- `df[df.duplicated([col], keep=False)]` (user_transformer.py:252):
every row whose email occurs at least twice. -/
def dup_rows (cleaned : List DRow) : List DRow :=
  cleaned.filter
    (fun r => 2 ≤ (cleaned.filter (fun x => x.email = r.email)).length)

/-- A row paired with its `_sort_parsed` helper column. -/
abbrev KRow := DRow × Option DT

/-- `df_copy["_sort_parsed"] = df_copy[sort_column].apply(_parse_datetime)`
(user_transformer.py:283): rows are parsed in order, and the first
`_parse_datetime` raise (the array-truth `ValueError` on a
multi-element-list cell) aborts the apply — the deduplicator has no
handler for it, so it propagates out. -/
def key_rows : List DRow → Except PyExc (List KRow)
  | [] => .ok []
  | r :: rs => do
      let d ← parse_datetime r.createdAt
      let rest ← key_rows rs
      pure ((r, d) :: rest)

/-- The parse outcome a row's `createdAt` contributes when parsing does
not raise: used to state ordering properties of the deduplicator. -/
def parsed_key (r : DRow) : Option DT :=
  match parse_datetime r.createdAt with
  | .ok d => d
  | .error _ => Option.none

/-- Order embedding of `datetime` values into naturals (lexicographic on
the components, faithful on the in-range dates Python can build). -/
def DT.key (d : DT) : Nat :=
  (((((d.year * 13 + d.month) * 32 + d.day) * 25 + d.hour) * 61 + d.minute)
      * 61 + d.second) * 1000000 + d.micro

/-- Sort key with `na_position="first"`: NaT (unparseable) sorts before
every real timestamp. -/
def opt_key : Option DT → Nat
  | Option.none => 0
  | some d => d.key + 1

/-- The comparison `sort_values("_sort_parsed", na_position="first")`
sorts by. -/
def krle (a b : KRow) : Prop := opt_key a.2 ≤ opt_key b.2

instance : DecidableRel krle := fun _ _ => Nat.decLe _ _

instance : IsTotal KRow krle := ⟨fun _ _ => Nat.le_total _ _⟩

instance : IsTrans KRow krle := ⟨fun _ _ _ => Nat.le_trans⟩

/-- What pandas `sort_values(..., na_position="first")` guarantees of its
result: a permutation of the input, nondecreasing in the key with
missing keys first.  Tie order is NOT guaranteed (default kind
`quicksort` is unstable). -/
def SortOk (f : List KRow → List KRow) : Prop :=
  ∀ l : List KRow, (f l).Perm l ∧ (f l).Sorted krle

/-- A concrete `SortOk` sort: stable insertion sort by the key. -/
def sort_krows (l : List KRow) : List KRow :=
  l.insertionSort krle

/-- A second concrete `SortOk` sort that reverses tie order. -/
def sort_krows_rev (l : List KRow) : List KRow :=
  l.reverse.insertionSort krle

/-- The `keep` policy strings accepted by the deduplicator. -/
inductive Keep where
  | first
  | last
  | all
deriving DecidableEq, Repr

/-- The policy string, as interpolated into `deduplication_method`. -/
def keep_str : Keep → String
  | .first => "first"
  | .last => "last"
  | .all => "all"

/-- pandas `drop_duplicates(keep="last")` keyed by `key`: keep a row iff
no later row shares its key (order otherwise preserved). -/
def drop_dup_last_by {α β : Type} (key : α → β) [DecidableEq β] :
    List α → List α
  | [] => []
  | x :: xs =>
      if xs.any (fun y => key y = key x) then drop_dup_last_by key xs
      else x :: drop_dup_last_by key xs

/-- pandas `drop_duplicates(keep="first")` keyed by `key`: keep the first
row of each key, dropping the later ones. -/
def drop_dup_first_by {α β : Type} (key : α → β) [DecidableEq β] :
    List α → List α
  | [] => []
  | x :: xs => x :: drop_dup_first_by key (xs.filter (fun y => key y ≠ key x))
termination_by l => l.length
decreasing_by
  exact Nat.lt_succ_of_le (List.length_filter_le _ _)

/-- `drop_duplicates` dispatched on the `keep` policy (`keep="all"` never
reaches it in the source; identity for totality). -/
def apply_keep {α β : Type} (k : Keep) (key : α → β) [DecidableEq β]
    (l : List α) : List α :=
  match k with
  | .last => drop_dup_last_by key l
  | .first => drop_dup_first_by key l
  | .all => l

/-- `deduplication_stats` as written by `detect_and_remove_duplicates`;
`Option.none` models a key absent from the stats dict on that path
(the per-value `duplicate_details` dict is not modelled). -/
structure DedupStats where
  duplicates_found : Nat
  unique_duplicate_values : Option Nat
  initial_count : Option Nat
  final_count : Option Nat
  removed_count : Option Nat
  method : Option String
deriving DecidableEq, Repr

/-- `UserTransformerService.detect_and_remove_duplicates`
(user_transformer.py:236-320) with the default email/createdAt columns:
clean the email column and drop rows whose cleaned email is null; mark
all rows of multiply-occurring emails as duplicates (`keep=False`); if
none, return with zero counts; with `keep="all"`, report but remove
nothing; otherwise, when the sort column exists, parse `createdAt` into
a helper column — a `_parse_datetime` raise here propagates out of the
function, there is no handler — sort by it (NaT first) and
`drop_duplicates` on email with the requested policy; without the sort
column, `drop_duplicates` in original order.  `removed_count` is
measured against the pre-cleaning row count, as in the source. -/
def detect_and_remove_duplicates (sort_values : List KRow → List KRow)
    (has_sort_col : Bool) (keep : Keep) (rows : List DRow) :
    Except PyExc (List DRow × DedupStats) :=
  let initial_count := rows.length
  let cleaned := clean_and_drop rows
  let dups := dup_rows cleaned
  if dups.isEmpty then
    .ok (cleaned,
     { duplicates_found := 0, unique_duplicate_values := Option.none,
       initial_count := some initial_count,
       final_count := some initial_count,
       removed_count := some 0, method := Option.none })
  else if keep = Keep.all then
    .ok (cleaned,
     { duplicates_found := dups.length,
       unique_duplicate_values := some (dups.map DRow.email).dedup.length,
       initial_count := Option.none, final_count := Option.none,
       removed_count := Option.none, method := Option.none })
  else if has_sort_col then do
    let keyed ← key_rows cleaned
    let sorted := sort_values keyed
    let deduped := (apply_keep keep (fun p : KRow => p.1.email) sorted).map Prod.fst
    pure (deduped,
     { duplicates_found := dups.length,
       unique_duplicate_values := some (dups.map DRow.email).dedup.length,
       initial_count := some initial_count,
       final_count := some deduped.length,
       removed_count := some (initial_count - deduped.length),
       method := some ("keep_" ++ keep_str keep ++ "_by_createdAt") })
  else
    let deduped := apply_keep keep (fun r : DRow => r.email) cleaned
    .ok (deduped,
     { duplicates_found := dups.length,
       unique_duplicate_values := some (dups.map DRow.email).dedup.length,
       initial_count := some initial_count,
       final_count := some deduped.length,
       removed_count := some (initial_count - deduped.length),
       method := some ("keep_" ++ keep_str keep ++ "_by_createdAt") })

/-
  Conflict Resolver: the classification loop of `main.py:128-159` plus
  `generate_new_unique_id` (main.py:9-16).  The uuid draw of the latter
  is modelled by a generator `gen` whose postcondition — the returned id
  is not in the avoided list, guaranteed by the retry loop on
  termination — appears as the hypothesis `∀ l, gen l ∉ l` where needed.
-/

/-- One entry of the `id_changes` audit list (main.py:152). -/
structure IdChange where
  old_id : String
  new_id : String
  email : String
deriving DecidableEq, Repr

/-- The loop state of the conflict resolution pass: the records kept for
insertion, the id-rewrite audit entries, and the growing
`existing_ids` list (new ids are appended to it, main.py:153). -/
structure ResolveState where
  new_users : List UserModel
  id_changes : List IdChange
  existing_ids : List String
deriving DecidableEq, Repr

/-- `row_copy = row.copy(); row_copy["id"] = new_id` (main.py:149-150). -/
def set_id (u : UserModel) (i : String) : UserModel :=
  { u with id := i }

/-- One iteration of the conflict loop (main.py:131-159): skip when the
email exists (cases 1 and 2), rewrite the id when only the id exists
(case 3), insert unchanged otherwise (case 4). -/
def resolve_step (gen : List String → String) (existing_emails : List String)
    (s : ResolveState) (u : UserModel) : ResolveState :=
  if u.email ∈ existing_emails ∧ u.id ∈ s.existing_ids then s
  else if u.email ∈ existing_emails ∧ u.id ∉ s.existing_ids then s
  else if u.id ∈ s.existing_ids ∧ u.email ∉ existing_emails then
    let new_id := gen (s.existing_ids ++ s.new_users.map UserModel.id)
    { new_users := s.new_users ++ [set_id u new_id],
      id_changes := s.id_changes ++ [⟨u.id, new_id, u.email⟩],
      existing_ids := s.existing_ids ++ [new_id] }
  else { s with new_users := s.new_users ++ [u] }

/-- The whole conflict resolution pass over the transformed batch. -/
def resolve_conflicts (gen : List String → String)
    (existing_emails existing_ids : List String)
    (batch : List UserModel) : ResolveState :=
  batch.foldl (resolve_step gen existing_emails) ⟨[], [], existing_ids⟩

/-- The three outcomes of the classification. -/
inductive Outcome where
  | skip
  | rewrite
  | insert
deriving DecidableEq, Repr

/-- The classification the four `if/elif` branches implement: email
present anywhere → skip; else id present → rewrite; else insert. -/
def classify (existing_ids existing_emails : List String) (u : UserModel) :
    Outcome :=
  if u.email ∈ existing_emails then .skip
  else if u.id ∈ existing_ids then .rewrite
  else .insert

/-- A concrete generator with `generate_new_unique_id`'s postcondition:
concatenating every avoided string and appending a character yields a
string longer than — hence different from — each of them. -/
def gen_fresh (l : List String) : String :=
  (l.foldr (· ++ ·) "") ++ "x"

/-
  Loader, per-record mode (`load_users_dataframe`,
  postgres_loader.py:524-605).  `table_ok` models
  `check_table_exists() or create_user_table()` at entry; `clean` models
  the row-count-preserving columnwise `_clean_dataframe_for_postgres`;
  `ins i r` models the outcome of `_insert_single_user` on the i-th
  cleaned row — `Option.none` for success, or the message of whatever
  exception the insert raised (driver error, constraint violation, or
  its own `ValueError`).
-/

/-- One entry of `LoadReport.errors` (postgres_loader.py:570-574). -/
structure LoadErr where
  user_id : Value
  error : String
deriving DecidableEq, Repr

/-- The dict returned by `load_users_dataframe`; `error_msg` is the
`error` key present only on the failure paths. -/
structure LoadReport where
  success : Bool
  error_msg : Option String
  total_processed : Nat
  inserted_count : Nat
  failed_count : Nat
  errors : List LoadErr
deriving DecidableEq, Repr

/-- The per-record insert loop (postgres_loader.py:558-575): each failure
is caught, recorded with the row's id and message, and the loop
continues; returns (inserted, failed, errors). -/
def load_loop (ins : Nat → RawRecord → Option String) :
    List RawRecord → Nat → Nat × Nat × List LoadErr
  | [], _ => (0, 0, [])
  | r :: rs, i =>
      let rest := load_loop ins rs (i + 1)
      match ins i r with
      | Option.none => (rest.1 + 1, rest.2.1, rest.2.2)
      | some msg =>
          (rest.1, rest.2.1 + 1,
           ⟨raw_get r "id" (.str "unknown"), msg⟩ :: rest.2.2)

/-- `PostgreSQLLoaderService.load_users_dataframe`
(postgres_loader.py:524-605): fail early when the table is missing and
cannot be created; otherwise clean the frame, insert row by row with
per-record error isolation, and report the counts. -/
def load_users_dataframe (clean : RawRecord → RawRecord)
    (ins : Nat → RawRecord → Option String) (table_ok : Bool)
    (rows : List RawRecord) : LoadReport :=
  if table_ok = false then
    { success := false,
      error_msg := some "Table User does not exist and could not be created",
      total_processed := 0, inserted_count := 0, failed_count := 0,
      errors := [] }
  else
    let clean_rows := rows.map clean
    let res := load_loop ins clean_rows 0
    { success := true, error_msg := Option.none,
      total_processed := clean_rows.length,
      inserted_count := res.1, failed_count := res.2.1, errors := res.2.2 }

/-
  ------------------------------------------------------------------
  Theorems
  ------------------------------------------------------------------
-/

/-- C1 (corrected), counterexample: the null-sentinel strings are NOT
classified empty by `_safe_isna` and are returned unchanged by
`_clean_nan_values` — `pd.isna` does not inspect string contents; the
sentinel handling lives in `_clean_string_field` instead. -/
theorem c1_counterexample :
    safe_isna (Value.str "nan") = false ∧
    clean_nan_values (Value.str "nan") = Value.str "nan" ∧
    safe_isna (Value.str "") = false ∧
    clean_nan_values (Value.str "") = Value.str "" ∧
    safe_isna (Value.str "None") = false ∧
    clean_nan_values (Value.str "NULL") = Value.str "NULL" := by
  decide

/-- C1 (corrected), amended claim: for the values `pd.isna` recognises —
absent (modelled as native null), native null, NaN, NaT —
`_clean_nan_values` returns null and `_safe_isna` returns true; but a
string is never empty for this pair of functions, whatever its content;
the case-insensitive sentinel strings are instead collapsed to null by
`_clean_string_field`. -/
theorem c1_null_unifier :
    (safe_isna Value.none = true ∧ clean_nan_values Value.none = Value.none ∧
     safe_isna Value.nan = true ∧ clean_nan_values Value.nan = Value.none ∧
     safe_isna Value.nat = true ∧ clean_nan_values Value.nat = Value.none) ∧
    (∀ s : String, safe_isna (Value.str s) = false ∧
      clean_nan_values (Value.str s) = Value.str s) ∧
    (∀ s : String, py_lower (py_strip s) ∈ ["nan", "null", "none", "", "nat"] →
      clean_string_field (Value.str s) = Option.none) := by
  refine ⟨by decide, fun s => ⟨rfl, rfl⟩, fun s h => ?_⟩
  show strip_or_none (Value.str s) = Option.none
  simp only [strip_or_none, py_str]
  rw [if_pos (Or.inr h)]

/-- C1 witness: the theorem applied to the sentinel string `" NaN "`. -/
theorem c1_witness : clean_string_field (Value.str " NaN ") = Option.none :=
  c1_null_unifier.2.2 " NaN " (by decide)

/-- C3 (confirmed): the Null Unifier converts everything it classifies
empty to null, and `transform_single_user` never lets an exception past
its boundary: for every input record it either returns a validated user
and bumps the success counter, or returns nothing, bumps the failure
counter, and appends an error-report entry — the body's errors are all
consumed by the except handlers. -/
theorem c3_never_raises :
    (∀ v : Value, safe_isna v = true → clean_nan_values v = Value.none) ∧
    (∀ (now : DT) (fid : String) (raw : RawRecord) (st : TState),
      (∃ u : UserModel, transform_single_user now fid raw st =
        (some u, { st with successful_transformations :=
                     st.successful_transformations + 1 })) ∨
      (∃ info : ErrorInfo, transform_single_user now fid raw st =
        (Option.none,
         { st with failed_transformations := st.failed_transformations + 1,
                   transformation_errors :=
                     st.transformation_errors ++ [info] }))) := by
  constructor
  · intro v h
    cases v with
    | none => rfl
    | nan => rfl
    | nat => rfl
    | list xs => simp [clean_nan_values, h]
    | bool b => exact absurd h (by simp [safe_isna, pd_isna_scalar])
    | int n => exact absurd h (by simp [safe_isna, pd_isna_scalar])
    | str s => exact absurd h (by simp [safe_isna, pd_isna_scalar])
    | dt d => exact absurd h (by simp [safe_isna, pd_isna_scalar])
    | timestamp s => exact absurd h (by simp [safe_isna, pd_isna_scalar])
    | dict fs => exact absurd h (by simp [safe_isna, pd_isna_scalar])
  · intro now fid raw st
    cases hb : transform_body now fid raw with
    | ok u => exact Or.inl ⟨u, by simp [transform_single_user, hb]⟩
    | error e => exact Or.inr ⟨error_entry raw e, by simp [transform_single_user, hb]⟩

/-- C3 witness: the theorem applied to NaN. -/
theorem c3_witness : clean_nan_values Value.nan = Value.none :=
  c3_never_raises.1 Value.nan (by decide)

/-- Per-call counter bookkeeping of `transform_single_user`. -/
theorem transform_single_user_counters (now : DT) (fid : String)
    (raw : RawRecord) (st : TState) :
    (transform_single_user now fid raw st).2.successful_transformations
      = st.successful_transformations +
          (if (transform_single_user now fid raw st).1.isSome then 1 else 0) ∧
    (transform_single_user now fid raw st).2.failed_transformations
      = st.failed_transformations +
          (if (transform_single_user now fid raw st).1.isSome then 0 else 1) := by
  cases hb : transform_body now fid raw with
  | ok u => simp [transform_single_user, hb]
  | error e => simp [transform_single_user, hb]

/-- Counter bookkeeping of the `transform_users_list` loop, for any
starting state. -/
theorem transform_users_loop_counters (now : DT) (fids : Nat → String) :
    ∀ (users : List RawRecord) (i : Nat) (st : TState),
      (transform_users_loop now fids users i st).2.successful_transformations +
          (transform_users_loop now fids users i st).2.failed_transformations
        = st.successful_transformations + st.failed_transformations +
            users.length ∧
      (transform_users_loop now fids users i st).1.length +
          st.successful_transformations
        = (transform_users_loop now fids users i st).2.successful_transformations := by
  intro users
  induction users with
  | nil => intro i st; simp [transform_users_loop]
  | cons r rs ih =>
      intro i st
      have hcall := transform_single_user_counters now (fids i) r st
      cases hres : transform_single_user now (fids i) r st with
      | mk o st2 =>
          rw [hres] at hcall
          have h1 := ih (i + 1) st2
          cases o with
          | none =>
              simp only [Option.isSome_none, Bool.false_eq_true, if_false] at hcall
              simp only [transform_users_loop, hres, List.length_cons]
              omega
          | some u =>
              simp only [Option.isSome_some, if_true] at hcall
              simp only [transform_users_loop, hres, List.length_cons]
              omega

/-- C10 (confirmed): every call to `transform_single_user` increments
exactly one of the two counters, and after `transform_users_list` on a
batch of n records the counters sum to n with the returned list's length
equal to the success counter. -/
theorem c10_counter_invariant :
    (∀ (now : DT) (fid : String) (raw : RawRecord) (st : TState),
      ((transform_single_user now fid raw st).2.successful_transformations
          = st.successful_transformations + 1 ∧
        (transform_single_user now fid raw st).2.failed_transformations
          = st.failed_transformations) ∨
      ((transform_single_user now fid raw st).2.successful_transformations
          = st.successful_transformations ∧
        (transform_single_user now fid raw st).2.failed_transformations
          = st.failed_transformations + 1)) ∧
    (∀ (now : DT) (fids : Nat → String) (users : List RawRecord),
      (transform_users_list now fids users).2.successful_transformations +
          (transform_users_list now fids users).2.failed_transformations
        = users.length ∧
      (transform_users_list now fids users).1.length
        = (transform_users_list now fids users).2.successful_transformations) := by
  constructor
  · intro now fid raw st
    have hcall := transform_single_user_counters now fid raw st
    cases ho : (transform_single_user now fid raw st).1 with
    | none =>
        right
        rw [ho] at hcall
        simpa using hcall
    | some u =>
        left
        rw [ho] at hcall
        simpa using hcall
  · intro now fids users
    have h := transform_users_loop_counters now fids users 0 reset_counters
    simp only [reset_counters] at h
    constructor
    · have := h.1
      simpa [transform_users_list, reset_counters] using this
    · have := h.2
      simpa [transform_users_list, reset_counters] using this

/-- Accounting of the per-record insert loop: inserted plus failed
equals the row count, the error list has one entry per failure, and it
records exactly the failing rows' ids and messages in order. -/
theorem load_loop_spec (ins : Nat → RawRecord → Option String) :
    ∀ (rows : List RawRecord) (i : Nat),
      (load_loop ins rows i).1 + (load_loop ins rows i).2.1 = rows.length ∧
      (load_loop ins rows i).2.2.length = (load_loop ins rows i).2.1 ∧
      (load_loop ins rows i).2.2 = (rows.enumFrom i).filterMap
        (fun p => (ins p.1 p.2).map
          (fun m => { user_id := raw_get p.2 "id" (Value.str "unknown"),
                      error := m })) := by
  intro rows
  induction rows with
  | nil => intro i; simp [load_loop]
  | cons r rs ih =>
      intro i
      have h1 := ih (i + 1)
      cases hins : ins i r with
      | none =>
          refine ⟨?_, ?_, ?_⟩
          · simp only [load_loop, hins, List.length_cons]
            omega
          · simp only [load_loop, hins]
            exact h1.2.1
          · simp only [load_loop, hins, List.enumFrom_cons, List.filterMap_cons]
            simpa [hins] using h1.2.2
      | some m =>
          refine ⟨?_, ?_, ?_⟩
          · simp only [load_loop, hins, List.length_cons]
            omega
          · have h2 := h1.2.1
            simp only [load_loop, hins, List.length_cons]
            omega
          · simp only [load_loop, hins, List.enumFrom_cons, List.filterMap_cons]
            simpa [hins] using h1.2.2

/-- C9 (confirmed): in per-record load mode (table present), each failing
insert is caught and recorded with that record's identifier and error
message while the loop continues — the error list enumerates exactly the
failing cleaned rows, in order — and on completion
`total_processed = inserted_count + failed_count` with one error entry
per failure. -/
theorem c9_per_record_load (clean : RawRecord → RawRecord)
    (ins : Nat → RawRecord → Option String) (rows : List RawRecord) :
    (load_users_dataframe clean ins true rows).total_processed
      = (load_users_dataframe clean ins true rows).inserted_count
          + (load_users_dataframe clean ins true rows).failed_count ∧
    (load_users_dataframe clean ins true rows).errors.length
      = (load_users_dataframe clean ins true rows).failed_count ∧
    (load_users_dataframe clean ins true rows).errors
      = ((rows.map clean).enumFrom 0).filterMap
          (fun p => (ins p.1 p.2).map
            (fun m => { user_id := raw_get p.2 "id" (Value.str "unknown"),
                        error := m })) ∧
    (load_users_dataframe clean ins true rows).success = true := by
  have h := load_loop_spec ins (rows.map clean) 0
  have hrep : load_users_dataframe clean ins true rows =
      { success := true, error_msg := Option.none,
        total_processed := (rows.map clean).length,
        inserted_count := (load_loop ins (rows.map clean) 0).1,
        failed_count := (load_loop ins (rows.map clean) 0).2.1,
        errors := (load_loop ins (rows.map clean) 0).2.2 } := rfl
  rw [hrep]
  refine ⟨?_, h.2.1, h.2.2, rfl⟩
  show (rows.map clean).length
    = (load_loop ins (rows.map clean) 0).1 + (load_loop ins (rows.map clean) 0).2.1
  have := h.1
  omega

/-- C7 (corrected), counterexample: a record with empty email and
provider `"google.com"` whose `createdAt` is a two-element list is NOT
transformed into a placeholder user — `_parse_datetime`'s bare
`if pd.isna(value):` raises on the multi-element array while the field
dict is being built, the generic handler records the array-ambiguity
message, and the record fails. -/
theorem c7_counterexample :
    (transform_single_user ⟨2024, 1, 1, 0, 0, 0, 0⟩ "f"
        [("provider", Value.str "google.com"), ("uid", Value.str "u1"),
         ("email", Value.none),
         ("createdAt", Value.list (.cons (.str "2020-01-01")
            (.cons (.str "2021-01-01") .nil)))] reset_counters).1
      = Option.none ∧
    (transform_single_user ⟨2024, 1, 1, 0, 0, 0, 0⟩ "f"
        [("provider", Value.str "google.com"), ("uid", Value.str "u1"),
         ("email", Value.none),
         ("createdAt", Value.list (.cons (.str "2020-01-01")
            (.cons (.str "2021-01-01") .nil)))] reset_counters).2.failed_transformations
      = 1 ∧
    ((transform_single_user ⟨2024, 1, 1, 0, 0, 0, 0⟩ "f"
        [("provider", Value.str "google.com"), ("uid", Value.str "u1"),
         ("email", Value.none),
         ("createdAt", Value.list (.cons (.str "2020-01-01")
            (.cons (.str "2021-01-01") .nil)))] reset_counters).2.transformation_errors.map
        ErrorInfo.error)
      = ["Unexpected error: " ++ ndarray_ambiguous_msg] := by
  decide

/-- C7 (corrected), amended claim: whenever the cleaned email is empty,
the raw provider field equals `"google.com"`, and none of the record's
four datetime fields makes `_parse_datetime` raise (as a
multi-element-list value does), the transformer succeeds with the
synthesized placeholder email built from `str(raw.get("uid",
"unknown"))`; in particular the placeholder uses `"unknown"` when the
uid key is absent. -/
theorem c7_google_placeholder (now : DT) (fid : String) (raw : RawRecord)
    (st : TState) (bd cr up lc : Option DT)
    (h1 : clean_string_field (raw_get raw "email" (.str "")) = Option.none)
    (h2 : raw_getn raw "provider" = Value.str "google.com")
    (hp1 : parse_datetime (py_or (raw_getn raw "birthDate")
      (raw_getn raw "birth_date")) = .ok bd)
    (hp2 : parse_datetime (py_or (raw_getn raw "createdAt")
      (raw_getn raw "created_at")) = .ok cr)
    (hp3 : parse_datetime (py_or (raw_getn raw "updatedAt")
      (raw_getn raw "updated_at")) = .ok up)
    (hp4 : parse_datetime (py_or (raw_getn raw "lastConnexion")
      (raw_getn raw "last_connexion")) = .ok lc) :
    ((transform_single_user now fid raw st).1).map UserModel.email
      = some ("google_user_" ++ py_str (raw_get raw "uid" (.str "unknown"))
          ++ "@placeholder.com") ∧
    (transform_single_user now fid raw st).2.successful_transformations
      = st.successful_transformations + 1 ∧
    (raw.find? (fun p => p.1 = "uid") = Option.none →
      ((transform_single_user now fid raw st).1).map UserModel.email
        = some "google_user_unknown@placeholder.com") := by
  have hbody : transform_body now fid raw =
      Except.ok (build_user now fid raw
        ("google_user_" ++ py_str (raw_get raw "uid" (.str "unknown"))
          ++ "@placeholder.com") bd cr up lc) := by
    simp [transform_body, h1, h2, hp1, hp2, hp3, hp4, Bind.bind, Except.bind, Pure.pure, Except.pure]
  refine ⟨?_, ?_, fun h3 => ?_⟩
  · simp [transform_single_user, hbody, build_user]
  · simp [transform_single_user, hbody]
  · have huid : raw_get raw "uid" (.str "unknown") = Value.str "unknown" := by
      simp [raw_get, h3]
    simp [transform_single_user, hbody, build_user, huid, py_str]

/-- C7 witness: the amended theorem applied to the Scenario B record
`[provider: "google.com", uid: "u1", email: None]`, whose absent
datetime fields all parse without raising. -/
theorem c7_witness :
    ((transform_single_user ⟨2024, 1, 1, 0, 0, 0, 0⟩ "f"
        [("provider", Value.str "google.com"), ("uid", Value.str "u1"),
         ("email", Value.none)] reset_counters).1).map UserModel.email
      = some ("google_user_" ++
          py_str (raw_get [("provider", Value.str "google.com"),
            ("uid", Value.str "u1"), ("email", Value.none)] "uid"
            (.str "unknown")) ++ "@placeholder.com") :=
  (c7_google_placeholder ⟨2024, 1, 1, 0, 0, 0, 0⟩ "f"
    [("provider", Value.str "google.com"), ("uid", Value.str "u1"),
     ("email", Value.none)] reset_counters
    Option.none Option.none Option.none Option.none
    (by decide) (by decide) (by decide) (by decide) (by decide) (by decide)).1

/-- C8 (corrected), counterexample: on a record with empty email and a
non-Google provider the recorded failure reason is the string
`"Unexpected error: Email is required but missing"` — the raised
`ValueError` lands in the generic `except Exception` handler — not the
spec's literal `"email required"`; and if such a record also carries a
multi-element-list datetime field, the field construction raises first
and the recorded reason is the array-ambiguity message instead. -/
theorem c8_counterexample :
    (transform_single_user ⟨2024, 1, 1, 0, 0, 0, 0⟩ "f"
        [("provider", Value.str "CREDENTIALS")] reset_counters).2.transformation_errors
      = [{ user_id := Value.str "unknown",
           error := "Unexpected error: Email is required but missing",
           provider := Value.str "CREDENTIALS",
           has_email := false,
           raw_data_keys := ["provider"] }] ∧
    ¬ ("Unexpected error: Email is required but missing" = "email required") ∧
    ((transform_single_user ⟨2024, 1, 1, 0, 0, 0, 0⟩ "f"
        [("provider", Value.str "CREDENTIALS"),
         ("createdAt", Value.list (.cons (.str "2020-01-01")
            (.cons (.str "2021-01-01") .nil)))] reset_counters).2.transformation_errors.map
        ErrorInfo.error)
      = ["Unexpected error: " ++ ndarray_ambiguous_msg] := by
  decide

/-- C8 (corrected), amended claim: when the email is still empty after
normalization (the Google placeholder rule not firing) and no datetime
field aborts the field construction first (a multi-element-list value
would raise there and be recorded with the array-ambiguity message),
the transformer produces no validated user, increments the failure
counter, and appends an error entry carrying user_id, error, provider,
has_email and the raw record's keys — the recorded error text being
`"Unexpected error: Email is required but missing"` rather than the
literal `"email required"`. -/
theorem c8_email_required (now : DT) (fid : String) (raw : RawRecord)
    (st : TState) (bd cr up lc : Option DT)
    (h1 : clean_string_field (raw_get raw "email" (.str "")) = Option.none)
    (h2 : raw_getn raw "provider" ≠ Value.str "google.com")
    (hp1 : parse_datetime (py_or (raw_getn raw "birthDate")
      (raw_getn raw "birth_date")) = .ok bd)
    (hp2 : parse_datetime (py_or (raw_getn raw "createdAt")
      (raw_getn raw "created_at")) = .ok cr)
    (hp3 : parse_datetime (py_or (raw_getn raw "updatedAt")
      (raw_getn raw "updated_at")) = .ok up)
    (hp4 : parse_datetime (py_or (raw_getn raw "lastConnexion")
      (raw_getn raw "last_connexion")) = .ok lc) :
    transform_single_user now fid raw st =
      (Option.none,
       { st with failed_transformations := st.failed_transformations + 1,
                 transformation_errors := st.transformation_errors ++
                   [{ user_id := raw_get raw "id" (.str "unknown"),
                      error := "Unexpected error: Email is required but missing",
                      provider := raw_get raw "provider" (.str "unknown"),
                      has_email := py_bool (raw_getn raw "email"),
                      raw_data_keys := raw.map Prod.fst }] }) := by
  have hbody : transform_body now fid raw =
      Except.error (.valueError "Email is required but missing") := by
    simp [transform_body, h1, h2, hp1, hp2, hp3, hp4, Bind.bind, Except.bind, Pure.pure, Except.pure]
  simp [transform_single_user, hbody, error_entry, exc_message]

/-- C8 witness: the amended theorem applied to the Scenario C record
(no id, no email, no datetime fields). -/
theorem c8_witness :
    transform_single_user ⟨2024, 1, 1, 0, 0, 0, 0⟩ "f"
        [("provider", Value.str "CREDENTIALS")] reset_counters =
      (Option.none,
       { reset_counters with
         failed_transformations := reset_counters.failed_transformations + 1,
         transformation_errors := reset_counters.transformation_errors ++
           [{ user_id := raw_get [("provider", Value.str "CREDENTIALS")] "id" (.str "unknown"),
              error := "Unexpected error: Email is required but missing",
              provider := raw_get [("provider", Value.str "CREDENTIALS")] "provider" (.str "unknown"),
              has_email := py_bool (raw_getn [("provider", Value.str "CREDENTIALS")] "email"),
              raw_data_keys := [("provider", Value.str "CREDENTIALS")].map Prod.fst }] }) :=
  c8_email_required ⟨2024, 1, 1, 0, 0, 0, 0⟩ "f"
    [("provider", Value.str "CREDENTIALS")] reset_counters
    Option.none Option.none Option.none Option.none
    (by decide) (by decide) (by decide) (by decide) (by decide) (by decide)

/-- Every member of a string list is at most as long as the
concatenation of the whole list. -/
theorem length_le_foldr_append (l : List String) :
    ∀ s ∈ l, s.length ≤ (l.foldr (· ++ ·) "").length := by
  induction l with
  | nil => simp
  | cons a t ih =>
      intro s hs
      rcases List.mem_cons.mp hs with rfl | hs
      · simp [String.length_append]
      · have := ih s hs
        simp only [List.foldr_cons, String.length_append]
        omega

/-- `gen_fresh`'s output is strictly longer than every avoided string,
hence never among them: the postcondition `generate_new_unique_id`'s
retry loop establishes. -/
theorem gen_fresh_not_mem : ∀ l : List String, gen_fresh l ∉ l := by
  intro l hmem
  have hle := length_le_foldr_append l _ hmem
  have hx : "x".length = 1 := rfl
  have hlen : (gen_fresh l).length = (l.foldr (· ++ ·) "").length + 1 := by
    simp [gen_fresh, String.length_append, hx]
  omega

/-- C2 (confirmed): against the current lookup sets, every record gets
exactly one of the three outcomes — skip exactly when its email already
exists (id present or not), rewrite exactly when only its id exists,
insert exactly when neither exists — and the loop body realises the
outcome: skip leaves the state unchanged, rewrite appends the record
under a fresh id (outside the existing ids and the batch built so far)
with its email untouched, insert appends the record unchanged. -/
theorem c2_conflict_classification (gen : List String → String)
    (existing_emails : List String) (s : ResolveState) (u : UserModel)
    (hgen : ∀ l, gen l ∉ l) :
    (classify s.existing_ids existing_emails u = .skip ∨
     classify s.existing_ids existing_emails u = .rewrite ∨
     classify s.existing_ids existing_emails u = .insert) ∧
    (classify s.existing_ids existing_emails u = .skip ↔
      u.email ∈ existing_emails) ∧
    (classify s.existing_ids existing_emails u = .rewrite ↔
      u.email ∉ existing_emails ∧ u.id ∈ s.existing_ids) ∧
    (classify s.existing_ids existing_emails u = .insert ↔
      u.email ∉ existing_emails ∧ u.id ∉ s.existing_ids) ∧
    (classify s.existing_ids existing_emails u = .skip →
      resolve_step gen existing_emails s u = s) ∧
    (classify s.existing_ids existing_emails u = .rewrite →
      ∃ n, n ∉ s.existing_ids ∧ n ∉ s.new_users.map UserModel.id ∧
        resolve_step gen existing_emails s u =
          { new_users := s.new_users ++ [set_id u n],
            id_changes := s.id_changes ++ [⟨u.id, n, u.email⟩],
            existing_ids := s.existing_ids ++ [n] } ∧
        (set_id u n).email = u.email ∧ (set_id u n).id = n) ∧
    (classify s.existing_ids existing_emails u = .insert →
      resolve_step gen existing_emails s u =
        { s with new_users := s.new_users ++ [u] }) := by
  have hn := hgen (s.existing_ids ++ s.new_users.map UserModel.id)
  rw [List.mem_append] at hn
  push_neg at hn
  by_cases hme : u.email ∈ existing_emails <;>
    by_cases hid : u.id ∈ s.existing_ids
  · exact ⟨Or.inl (by simp [classify, hme]),
      by simp [classify, hme],
      by simp [classify, hme],
      by simp [classify, hme],
      fun _ => by simp [resolve_step, hme, hid],
      fun hc => absurd hc (by simp [classify, hme]),
      fun hc => absurd hc (by simp [classify, hme])⟩
  · exact ⟨Or.inl (by simp [classify, hme]),
      by simp [classify, hme],
      by simp [classify, hme],
      by simp [classify, hme],
      fun _ => by simp [resolve_step, hme, hid],
      fun hc => absurd hc (by simp [classify, hme]),
      fun hc => absurd hc (by simp [classify, hme])⟩
  · exact ⟨Or.inr (Or.inl (by simp [classify, hme, hid])),
      by simp [classify, hme, hid],
      by simp [classify, hme, hid],
      by simp [classify, hme, hid],
      fun hc => absurd hc (by simp [classify, hme, hid]),
      fun _ => ⟨gen (s.existing_ids ++ s.new_users.map UserModel.id),
        hn.1, hn.2, by simp [resolve_step, hme, hid], rfl, rfl⟩,
      fun hc => absurd hc (by simp [classify, hme, hid])⟩
  · exact ⟨Or.inr (Or.inr (by simp [classify, hme, hid])),
      by simp [classify, hme, hid],
      by simp [classify, hme, hid],
      by simp [classify, hme, hid],
      fun hc => absurd hc (by simp [classify, hme, hid]),
      fun hc => absurd hc (by simp [classify, hme, hid]),
      fun _ => by simp [resolve_step, hme, hid]⟩

/-- A minimal validated record for concrete instances. -/
def mk_user (i em : String) : UserModel :=
  { id := i, email := em, emailVerified := false, password := Option.none,
    uid := Option.none, provider := "CREDENTIALS", profilePic := Option.none,
    phoneNumber := Option.none, phoneVerified := false, name := Option.none,
    city := Option.none, birthdate := Option.none, photo := Option.none,
    createdAt := ⟨2024, 1, 1, 0, 0, 0, 0⟩, updatedAt := ⟨2024, 1, 1, 0, 0, 0, 0⟩,
    status := .ACTIVE, interests := Option.none, lastConnexion := Option.none }

/-- C2 witness: Scenario D — target has id "5" with email "b@x.com";
the incoming record (id "5", email "c@x.com") classifies as rewrite. -/
theorem c2_witness :
    classify (ResolveState.mk [] [] ["5"]).existing_ids ["b@x.com"]
        (mk_user "5" "c@x.com") = .rewrite ↔
      (mk_user "5" "c@x.com").email ∉ ["b@x.com"] ∧
      (mk_user "5" "c@x.com").id ∈ (ResolveState.mk [] [] ["5"]).existing_ids :=
  (c2_conflict_classification gen_fresh ["b@x.com"] (ResolveState.mk [] [] ["5"])
    (mk_user "5" "c@x.com") gen_fresh_not_mem).2.2.1

/-- One step of the conflict loop preserves the freshness invariant:
the original target ids stay inside `existing_ids`, the generated ids
stay pairwise distinct, and each generated id is tracked in
`existing_ids` while avoiding the original ids. -/
theorem resolve_step_inv (gen : List String → String)
    (emails ids0 : List String) (hgen : ∀ l, gen l ∉ l)
    (s : ResolveState) (u : UserModel)
    (h1 : ids0 ⊆ s.existing_ids)
    (h2 : (s.id_changes.map IdChange.new_id).Nodup)
    (h3 : ∀ n ∈ s.id_changes.map IdChange.new_id,
      n ∈ s.existing_ids ∧ n ∉ ids0) :
    ids0 ⊆ (resolve_step gen emails s u).existing_ids ∧
    ((resolve_step gen emails s u).id_changes.map IdChange.new_id).Nodup ∧
    (∀ n ∈ (resolve_step gen emails s u).id_changes.map IdChange.new_id,
      n ∈ (resolve_step gen emails s u).existing_ids ∧ n ∉ ids0) := by
  have hn := hgen (s.existing_ids ++ s.new_users.map UserModel.id)
  rw [List.mem_append] at hn
  push_neg at hn
  by_cases hme : u.email ∈ emails <;> by_cases hid : u.id ∈ s.existing_ids
  · have hstep : resolve_step gen emails s u = s := by
      simp [resolve_step, hme, hid]
    rw [hstep]; exact ⟨h1, h2, h3⟩
  · have hstep : resolve_step gen emails s u = s := by
      simp [resolve_step, hme, hid]
    rw [hstep]; exact ⟨h1, h2, h3⟩
  · have hstep : resolve_step gen emails s u =
        { new_users := s.new_users ++
            [set_id u (gen (s.existing_ids ++ s.new_users.map UserModel.id))],
          id_changes := s.id_changes ++
            [⟨u.id, gen (s.existing_ids ++ s.new_users.map UserModel.id), u.email⟩],
          existing_ids := s.existing_ids ++
            [gen (s.existing_ids ++ s.new_users.map UserModel.id)] } := by
      simp [resolve_step, hme, hid]
    rw [hstep]
    refine ⟨fun x hx => List.mem_append_left _ (h1 hx), ?_, ?_⟩
    · simp only [List.map_append, List.map_cons, List.map_nil]
      rw [List.nodup_append]
      refine ⟨h2, List.nodup_singleton _, ?_⟩
      intro a ha hb
      have hb' := List.mem_singleton.mp hb
      subst hb'
      exact hn.1 (h3 _ ha).1
    · intro n hng
      simp only [List.map_append, List.map_cons, List.map_nil,
        List.mem_append, List.mem_singleton] at hng
      rcases hng with hng | rfl
      · exact ⟨List.mem_append_left _ (h3 n hng).1, (h3 n hng).2⟩
      · refine ⟨List.mem_append_right _ (List.mem_singleton_self _), ?_⟩
        intro hcon
        exact hn.1 (h1 hcon)
  · have hstep : resolve_step gen emails s u =
        { s with new_users := s.new_users ++ [u] } := by
      simp [resolve_step, hme, hid]
    rw [hstep]; exact ⟨h1, h2, h3⟩

/-- The freshness invariant carried through the whole fold. -/
theorem resolve_fold_inv (gen : List String → String)
    (emails ids0 : List String) (hgen : ∀ l, gen l ∉ l) :
    ∀ (batch : List UserModel) (s : ResolveState),
      ids0 ⊆ s.existing_ids →
      (s.id_changes.map IdChange.new_id).Nodup →
      (∀ n ∈ s.id_changes.map IdChange.new_id,
        n ∈ s.existing_ids ∧ n ∉ ids0) →
      ids0 ⊆ (batch.foldl (resolve_step gen emails) s).existing_ids ∧
      ((batch.foldl (resolve_step gen emails) s).id_changes.map
          IdChange.new_id).Nodup ∧
      (∀ n ∈ (batch.foldl (resolve_step gen emails) s).id_changes.map
          IdChange.new_id,
        n ∈ (batch.foldl (resolve_step gen emails) s).existing_ids ∧
          n ∉ ids0) := by
  intro batch
  induction batch with
  | nil => intro s h1 h2 h3; exact ⟨h1, h2, h3⟩
  | cons u rest ih =>
      intro s h1 h2 h3
      have hstep := resolve_step_inv gen emails ids0 hgen s u h1 h2 h3
      simpa [List.foldl_cons] using
        ih (resolve_step gen emails s u) hstep.1 hstep.2.1 hstep.2.2

/-- C6 (confirmed): across a whole conflict-resolution run, rewrite-case
identifiers are pairwise distinct and none of them collides with a
pre-existing target identifier. -/
theorem c6_fresh_ids_distinct (gen : List String → String)
    (emails ids : List String) (batch : List UserModel)
    (hgen : ∀ l, gen l ∉ l) :
    ((resolve_conflicts gen emails ids batch).id_changes.map
        IdChange.new_id).Nodup ∧
    ∀ n ∈ (resolve_conflicts gen emails ids batch).id_changes.map
        IdChange.new_id, n ∉ ids := by
  have h := resolve_fold_inv gen emails ids hgen batch ⟨[], [], ids⟩
    (fun x hx => hx) (by simp) (by simp)
  exact ⟨h.2.1, fun n hn => (h.2.2 n hn).2⟩

/-- C6 witness: two incoming records both colliding with target id "5"
get pairwise distinct generated ids. -/
theorem c6_witness :
    ((resolve_conflicts gen_fresh [] ["5"]
        [mk_user "5" "c@x.com", mk_user "5" "d@x.com"]).id_changes.map
        IdChange.new_id).Nodup :=
  (c6_fresh_ids_distinct gen_fresh [] ["5"]
    [mk_user "5" "c@x.com", mk_user "5" "d@x.com"] gen_fresh_not_mem).1

/-- `drop_dup_last_by` only keeps rows of its input. -/
theorem drop_dup_last_by_subset {α β : Type} (key : α → β) [DecidableEq β] :
    ∀ (l : List α), ∀ x ∈ drop_dup_last_by key l, x ∈ l := by
  intro l
  induction l with
  | nil => simp [drop_dup_last_by]
  | cons z zs ih =>
      intro x hx
      rw [drop_dup_last_by] at hx
      split_ifs at hx with h
      · exact List.mem_cons_of_mem z (ih x hx)
      · rcases List.mem_cons.mp hx with rfl | hx2
        · exact List.mem_cons_self _ _
        · exact List.mem_cons_of_mem z (ih x hx2)

/-- `drop_dup_last_by` keeps exactly one row per key present in the
input, and none for absent keys. -/
theorem drop_dup_last_by_countP {α β : Type} (key : α → β) [DecidableEq β]
    (k : β) :
    ∀ l : List α,
      (drop_dup_last_by key l).countP (fun x => key x = k)
        = if l.any (fun x => key x = k) then 1 else 0 := by
  intro l
  induction l with
  | nil => simp [drop_dup_last_by]
  | cons z zs ih =>
      by_cases h : (zs.any fun y => decide (key y = key z)) = true
      · have hdd : drop_dup_last_by key (z :: zs)
            = drop_dup_last_by key zs := by
          rw [drop_dup_last_by, if_pos h]
        rw [hdd, ih, List.any_cons]
        by_cases hk : key z = k
        · have hany : (zs.any fun x => decide (key x = k)) = true := by
            rcases List.any_eq_true.mp h with ⟨y, hy, hyk⟩
            refine List.any_eq_true.mpr ⟨y, hy, ?_⟩
            rw [decide_eq_true_eq] at hyk ⊢
            rw [hyk, hk]
          rw [hany]
          simp
        · simp [hk]
      · have hdd : drop_dup_last_by key (z :: zs)
            = z :: drop_dup_last_by key zs := by
          rw [drop_dup_last_by, if_neg h]
        rw [hdd, List.countP_cons, ih, List.any_cons]
        by_cases hk : key z = k
        · have hany : (zs.any fun x => decide (key x = k)) = false := by
            cases hb : (zs.any fun x => decide (key x = k)) with
            | false => rfl
            | true =>
                rcases List.any_eq_true.mp hb with ⟨y, hy, hyk⟩
                refine absurd (List.any_eq_true.mpr ⟨y, hy, ?_⟩) h
                rw [decide_eq_true_eq] at hyk ⊢
                rw [hyk, hk]
          rw [hany]
          simp [hk]
        · simp [hk]

/-- After a sort, a survivor of `drop_dup_last_by` is bounded below (in
the sorting relation) by every row of its key group. -/
theorem drop_dup_last_by_max {α β : Type} (key : α → β) [DecidableEq β]
    (R : α → α → Prop) :
    ∀ l : List α, l.Pairwise R →
      ∀ x ∈ drop_dup_last_by key l, ∀ y ∈ l, key y = key x →
        R y x ∨ y = x := by
  intro l
  induction l with
  | nil => simp [drop_dup_last_by]
  | cons z zs ih =>
      intro hp x hx y hy hk
      have hz := List.pairwise_cons.mp hp
      rw [drop_dup_last_by] at hx
      split_ifs at hx with h
      · rcases List.mem_cons.mp hy with rfl | hy2
        · exact Or.inl (hz.1 x (drop_dup_last_by_subset key zs x hx))
        · exact ih hz.2 x hx y hy2 hk
      · rcases List.mem_cons.mp hx with rfl | hx2
        · rcases List.mem_cons.mp hy with rfl | hy2
          · exact Or.inr rfl
          · exact absurd (List.any_eq_true.mpr
              ⟨y, hy2, by simp [hk]⟩) h
        · rcases List.mem_cons.mp hy with rfl | hy2
          · exact Or.inl (hz.1 x (drop_dup_last_by_subset key zs x hx2))
          · exact ih hz.2 x hx2 y hy2 hk

/-- A filter retaining at most one row retains at most one value. -/
theorem eq_of_filter_length_le_one {α : Type} (p : α → Bool) (l : List α)
    (h : (l.filter p).length ≤ 1) {a b : α}
    (ha : a ∈ l) (hb : b ∈ l) (hpa : p a = true) (hpb : p b = true) :
    a = b := by
  have ha2 : a ∈ l.filter p := List.mem_filter.mpr ⟨ha, hpa⟩
  have hb2 : b ∈ l.filter p := List.mem_filter.mpr ⟨hb, hpb⟩
  cases hf : l.filter p with
  | nil => rw [hf] at ha2; cases ha2
  | cons x t =>
      rw [hf] at ha2 hb2 h
      have ht : t = [] := by
        cases t with
        | nil => rfl
        | cons u v => simp at h
      subst ht
      simp only [List.mem_singleton] at ha2 hb2
      rw [ha2, hb2]

/-- A sorted permutation of a two-element list with strictly increasing
keys is that list itself. -/
theorem sorted_perm_pair (a b : KRow) (l : List KRow)
    (hp : l.Perm [a, b]) (hs : l.Sorted krle)
    (hlt : opt_key a.2 < opt_key b.2) : l = [a, b] := by
  have hab : a ≠ b := by
    intro hcon
    rw [hcon] at hlt
    exact lt_irrefl _ hlt
  have hlen : l.length = 2 := by simpa using hp.length_eq
  cases l with
  | nil => simp at hlen
  | cons x l1 =>
      cases l1 with
      | nil => simp at hlen
      | cons y l2 =>
          cases l2 with
          | cons z t => simp at hlen
          | nil =>
              have hx : x ∈ [a, b] := hp.subset (List.mem_cons_self _ _)
              have hy : y ∈ [a, b] := hp.subset (by simp)
              have hxy : krle x y := by
                rcases List.pairwise_cons.mp hs with ⟨h1, _⟩
                exact h1 y (List.mem_cons_self _ _)
              rcases List.mem_pair.mp hx with hxa | hxb
              · rcases List.mem_pair.mp hy with hya | hyb
                · exfalso
                  have hbm : b ∈ [x, y] := hp.symm.subset (by simp)
                  rw [hxa, hya] at hbm
                  simp only [List.mem_pair, or_self] at hbm
                  exact hab hbm.symm
                · rw [hxa, hyb]
              · rcases List.mem_pair.mp hy with hya | hyb
                · exfalso
                  have hle : opt_key x.2 ≤ opt_key y.2 := hxy
                  rw [hxb, hya] at hle
                  omega
                · exfalso
                  have ham : a ∈ [x, y] := hp.symm.subset (by simp)
                  rw [hxb, hyb] at ham
                  simp only [List.mem_pair, or_self] at ham
                  exact hab ham

/-- Specification of a successful `key_rows` run: the keyed list
projects back to the cleaned rows, each paired with its own successful
parse result. -/
theorem key_rows_ok_spec :
    ∀ (cleaned : List DRow) (keyed : List KRow),
      key_rows cleaned = .ok keyed →
      keyed.map Prod.fst = cleaned ∧
      ∀ p ∈ keyed, parse_datetime p.1.createdAt = .ok p.2 := by
  intro cleaned
  induction cleaned with
  | nil =>
      intro keyed h
      simp only [key_rows] at h
      have hk : ([] : List KRow) = keyed := Except.ok.inj h
      subst hk
      exact ⟨rfl, by intro p hp; cases hp⟩
  | cons r rs ih =>
      intro keyed h
      rw [key_rows] at h
      cases hp : parse_datetime r.createdAt with
      | error e =>
          rw [hp] at h
          exact Except.noConfusion h
      | ok d =>
          cases hr : key_rows rs with
          | error e =>
              rw [hp, hr] at h
              exact Except.noConfusion h
          | ok rest =>
              rw [hp, hr] at h
              have hk : ((r, d) :: rest : List KRow) = keyed := Except.ok.inj h
              subst hk
              obtain ⟨ih1, ih2⟩ := ih rest hr
              refine ⟨by simp [ih1], ?_⟩
              intro p hpmem
              rcases List.mem_cons.mp hpmem with hhead | hmem
              · subst hhead
                exact hp
              · exact ih2 p hmem

/-- Unfolding of the deduplicator when no duplicate emails remain (the
parse column is never built on this path). -/
theorem detect_last_eq_nodup (f : List KRow → List KRow) (rows : List DRow)
    (hd : (dup_rows (clean_and_drop rows)).isEmpty = true) :
    detect_and_remove_duplicates f true .last rows =
      .ok (clean_and_drop rows,
       { duplicates_found := 0, unique_duplicate_values := Option.none,
         initial_count := some rows.length,
         final_count := some rows.length,
         removed_count := some 0, method := Option.none }) := by
  simp [detect_and_remove_duplicates, hd]

/-- Unfolding of the deduplicator on the keep="last" removal path when
the parse column is built without raising. -/
theorem detect_last_eq_dup (f : List KRow → List KRow) (rows : List DRow)
    (keyed : List KRow)
    (hd : (dup_rows (clean_and_drop rows)).isEmpty = false)
    (hk : key_rows (clean_and_drop rows) = .ok keyed) :
    detect_and_remove_duplicates f true .last rows =
      .ok ((drop_dup_last_by (fun p : KRow => p.1.email) (f keyed)).map Prod.fst,
       { duplicates_found := (dup_rows (clean_and_drop rows)).length,
         unique_duplicate_values :=
           some ((dup_rows (clean_and_drop rows)).map DRow.email).dedup.length,
         initial_count := some rows.length,
         final_count := some ((drop_dup_last_by (fun p : KRow => p.1.email)
           (f keyed)).map Prod.fst).length,
         removed_count := some (rows.length -
           ((drop_dup_last_by (fun p : KRow => p.1.email)
             (f keyed)).map Prod.fst).length),
         method := some ("keep_" ++ keep_str Keep.last ++ "_by_createdAt") }) := by
  simp [detect_and_remove_duplicates, hd, hk, apply_keep, Bind.bind,
    Except.bind, Pure.pure, Except.pure]

/-- Unfolding of the deduplicator when `_parse_datetime` raises while
the parse column is built: the exception propagates out. -/
theorem detect_last_eq_err (f : List KRow → List KRow) (rows : List DRow)
    (e : PyExc)
    (hd : (dup_rows (clean_and_drop rows)).isEmpty = false)
    (hk : key_rows (clean_and_drop rows) = .error e) :
    detect_and_remove_duplicates f true .last rows = .error e := by
  simp [detect_and_remove_duplicates, hd, hk, Bind.bind, Except.bind]

/-- When no duplicates were detected, every email group of the cleaned
frame has at most one row. -/
theorem nodup_count_le_one (rows : List DRow)
    (hd : (dup_rows (clean_and_drop rows)).isEmpty = true)
    (r : DRow) (hr : r ∈ clean_and_drop rows) :
    ((clean_and_drop rows).filter
      (fun x => x.email = r.email)).length ≤ 1 := by
  by_contra hcon
  push_neg at hcon
  have hmem : r ∈ dup_rows (clean_and_drop rows) := by
    refine List.mem_filter.mpr ⟨hr, ?_⟩
    rw [decide_eq_true_eq]
    omega
  rw [List.isEmpty_iff.mp hd] at hmem
  cases hmem

/-- Survivors of a completed keep="last" deduplication are cleaned rows. -/
theorem dedup_out_subset (f : List KRow → List KRow) (hf : SortOk f)
    (rows out : List DRow) (stats : DedupStats)
    (hdet : detect_and_remove_duplicates f true .last rows = .ok (out, stats)) :
    ∀ r ∈ out, r ∈ clean_and_drop rows := by
  cases hd : (dup_rows (clean_and_drop rows)).isEmpty with
  | true =>
      rw [detect_last_eq_nodup f rows hd] at hdet
      have hout : clean_and_drop rows = out :=
        congrArg Prod.fst (Except.ok.inj hdet)
      rw [← hout]
      exact fun r hr => hr
  | false =>
      cases hk : key_rows (clean_and_drop rows) with
      | error e =>
          rw [detect_last_eq_err f rows e hd hk] at hdet
          exact Except.noConfusion hdet
      | ok keyed =>
          rw [detect_last_eq_dup f rows keyed hd hk] at hdet
          have hout : (drop_dup_last_by (fun p : KRow => p.1.email)
              (f keyed)).map Prod.fst = out :=
            congrArg Prod.fst (Except.ok.inj hdet)
          intro r hr
          rw [← hout] at hr
          rcases List.mem_map.mp hr with ⟨p, hp, heq⟩
          have hps := drop_dup_last_by_subset _ _ p hp
          have hpk : p ∈ keyed := ((hf keyed).1).subset hps
          have hspec := key_rows_ok_spec (clean_and_drop rows) keyed hk
          have hm : p.1 ∈ keyed.map Prod.fst := List.mem_map_of_mem _ hpk
          rw [hspec.1, heq] at hm
          exact hm

/-- Every email present in the cleaned frame has exactly one survivor in
a completed keep="last" deduplication. -/
theorem dedup_out_count (f : List KRow → List KRow) (hf : SortOk f)
    (rows out : List DRow) (stats : DedupStats)
    (hdet : detect_and_remove_duplicates f true .last rows = .ok (out, stats)) :
    ∀ e ∈ (clean_and_drop rows).map DRow.email,
      (out.filter (fun r => r.email = e)).length = 1 := by
  intro e he
  rcases List.mem_map.mp he with ⟨r0, hr0, he0⟩
  cases hd : (dup_rows (clean_and_drop rows)).isEmpty with
  | true =>
      rw [detect_last_eq_nodup f rows hd] at hdet
      have hout : clean_and_drop rows = out :=
        congrArg Prod.fst (Except.ok.inj hdet)
      rw [← hout]
      have h2 := nodup_count_le_one rows hd r0 hr0
      rw [he0] at h2
      have h1 : r0 ∈ (clean_and_drop rows).filter
          (fun x => x.email = e) := by
        refine List.mem_filter.mpr ⟨hr0, ?_⟩
        rw [decide_eq_true_eq]
        exact he0
      have h3 := List.length_pos_of_mem h1
      omega
  | false =>
      cases hk : key_rows (clean_and_drop rows) with
      | error e2 =>
          rw [detect_last_eq_err f rows e2 hd hk] at hdet
          exact Except.noConfusion hdet
      | ok keyed =>
          rw [detect_last_eq_dup f rows keyed hd hk] at hdet
          have hout : (drop_dup_last_by (fun p : KRow => p.1.email)
              (f keyed)).map Prod.fst = out :=
            congrArg Prod.fst (Except.ok.inj hdet)
          rw [← hout]
          rw [← List.countP_eq_length_filter, List.countP_map]
          show List.countP (fun x : KRow => decide (x.1.email = e))
              (drop_dup_last_by (fun p : KRow => p.1.email) (f keyed)) = 1
          rw [drop_dup_last_by_countP (fun p : KRow => p.1.email) e (f keyed)]
          have hspec := key_rows_ok_spec (clean_and_drop rows) keyed hk
          have hr0k : r0 ∈ keyed.map Prod.fst := by
            rw [hspec.1]
            exact hr0
          rcases List.mem_map.mp hr0k with ⟨q, hq, hq1⟩
          have hany : ((f keyed).any fun x => decide (x.1.email = e)) = true := by
            refine List.any_eq_true.mpr ⟨q, ?_, ?_⟩
            · rw [((hf keyed).1).mem_iff]
              exact hq
            · rw [decide_eq_true_eq, hq1, he0]
          rw [hany]
          rfl

/-- A survivor of a completed keep="last" deduplication bounds its whole
email group from above in the parsed `createdAt` order (unparseable
dates being the bottom key). -/
theorem dedup_out_max (f : List KRow → List KRow) (hf : SortOk f)
    (rows out : List DRow) (stats : DedupStats)
    (hdet : detect_and_remove_duplicates f true .last rows = .ok (out, stats)) :
    ∀ r ∈ out, ∀ s ∈ clean_and_drop rows, s.email = r.email →
      opt_key (parsed_key s) ≤ opt_key (parsed_key r) := by
  intro r hr s hs hse
  cases hd : (dup_rows (clean_and_drop rows)).isEmpty with
  | true =>
      rw [detect_last_eq_nodup f rows hd] at hdet
      have hout : clean_and_drop rows = out :=
        congrArg Prod.fst (Except.ok.inj hdet)
      rw [← hout] at hr
      have hone := nodup_count_le_one rows hd r hr
      have hsr : s = r := by
        refine eq_of_filter_length_le_one _ _ hone hs hr ?_ ?_
        · rw [decide_eq_true_eq]; exact hse
        · rw [decide_eq_true_eq]
      rw [hsr]
  | false =>
      cases hk : key_rows (clean_and_drop rows) with
      | error e =>
          rw [detect_last_eq_err f rows e hd hk] at hdet
          exact Except.noConfusion hdet
      | ok keyed =>
          rw [detect_last_eq_dup f rows keyed hd hk] at hdet
          have hout : (drop_dup_last_by (fun p : KRow => p.1.email)
              (f keyed)).map Prod.fst = out :=
            congrArg Prod.fst (Except.ok.inj hdet)
          rw [← hout] at hr
          rcases List.mem_map.mp hr with ⟨p, hp, heq⟩
          have hspec := key_rows_ok_spec (clean_and_drop rows) keyed hk
          have hsk : s ∈ keyed.map Prod.fst := by
            rw [hspec.1]
            exact hs
          rcases List.mem_map.mp hsk with ⟨q, hq, hq1⟩
          have hqf : q ∈ f keyed := by
            rw [((hf keyed).1).mem_iff]
            exact hq
          have hkey : (fun p : KRow => p.1.email) q
              = (fun p : KRow => p.1.email) p := by
            show q.1.email = p.1.email
            rw [hq1, heq]
            exact hse
          have hsort : (f keyed).Pairwise krle := (hf keyed).2
          have hmax := drop_dup_last_by_max (fun p : KRow => p.1.email) krle
            (f keyed) hsort p hp q hqf hkey
          have hqs : parsed_key s = q.2 := by
            have := hspec.2 q hq
            rw [hq1] at this
            simp [parsed_key, this]
          have hpr : parsed_key r = p.2 := by
            have hpk : p ∈ keyed := ((hf keyed).1).subset
              (drop_dup_last_by_subset _ _ p hp)
            have := hspec.2 p hpk
            rw [heq] at this
            simp [parsed_key, this]
          rcases hmax with hR | hqp
          · have : opt_key q.2 ≤ opt_key p.2 := hR
            rw [hqs, hpr]
            exact this
          · rw [hqs, hpr, hqp]

/-- The stable insertion sort meets the `sort_values` contract. -/
theorem sort_krows_sortok : SortOk sort_krows := fun l =>
  ⟨List.perm_insertionSort krle l, List.sorted_insertionSort krle l⟩

/-- The tie-reversing sort also meets the `sort_values` contract. -/
theorem sort_krows_rev_sortok : SortOk sort_krows_rev := fun l =>
  ⟨(List.perm_insertionSort krle l.reverse).trans (List.reverse_perm l),
   List.sorted_insertionSort krle l.reverse⟩

/-- A cleaned row survives a completed keep="last" deduplication exactly
when its parsed createdAt (per the fallible `_parse_datetime`) is
maximal in its email group — provided no group carries tied keys. -/
theorem mem_dedup_out_iff (f : List KRow → List KRow) (hf : SortOk f)
    (rows out : List DRow) (stats : DedupStats)
    (hdet : detect_and_remove_duplicates f true .last rows = .ok (out, stats))
    (hdist : (clean_and_drop rows).Pairwise
      (fun s t => s.email ≠ t.email ∨
        opt_key (parsed_key s) ≠ opt_key (parsed_key t)))
    (r : DRow) :
    r ∈ out ↔
      (r ∈ clean_and_drop rows ∧
       ∀ s ∈ clean_and_drop rows, s.email = r.email →
         opt_key (parsed_key s) ≤ opt_key (parsed_key r)) := by
  constructor
  · intro hr
    exact ⟨dedup_out_subset f hf rows out stats hdet r hr,
      dedup_out_max f hf rows out stats hdet r hr⟩
  · rintro ⟨hrc, hmax⟩
    have hcount := dedup_out_count f hf rows out stats hdet r.email
      (List.mem_map_of_mem _ hrc)
    cases hfil : out.filter (fun x => x.email = r.email) with
    | nil => rw [hfil] at hcount; simp at hcount
    | cons t rest =>
        have htf : t ∈ out.filter (fun x => x.email = r.email) := by
          rw [hfil]
          exact List.mem_cons_self _ _
        have ht := List.mem_filter.mp htf
        have hte : t.email = r.email := of_decide_eq_true ht.2
        have htc := dedup_out_subset f hf rows out stats hdet t ht.1
        have hle1 : opt_key (parsed_key t) ≤ opt_key (parsed_key r) :=
          hmax t htc hte
        have hle2 : opt_key (parsed_key r) ≤ opt_key (parsed_key t) :=
          dedup_out_max f hf rows out stats hdet t ht.1 r hrc hte.symm
        by_cases htr : t = r
        · rw [← htr]
          exact ht.1
        · exfalso
          have hsymm : Symmetric (fun s t : DRow => s.email ≠ t.email ∨
              opt_key (parsed_key s) ≠ opt_key (parsed_key t)) := by
            intro a b hab
            rcases hab with hab | hab
            · exact Or.inl (fun hc => hab hc.symm)
            · exact Or.inr (fun hc => hab hc.symm)
          rcases (hdist.forall hsymm) htc hrc htr with hne | hne
          · exact hne hte
          · exact hne (Nat.le_antisymm hle1 hle2)

/-- A run that raises does so independently of the sort routine: the
error comes from the parse column, which is built before sorting. -/
theorem detect_err_indep (f1 f2 : List KRow → List KRow)
    (rows : List DRow) (e : PyExc)
    (h : detect_and_remove_duplicates f1 true .last rows = .error e) :
    detect_and_remove_duplicates f2 true .last rows = .error e := by
  cases hd : (dup_rows (clean_and_drop rows)).isEmpty with
  | true =>
      rw [detect_last_eq_nodup f1 rows hd] at h
      exact Except.noConfusion h
  | false =>
      cases hk : key_rows (clean_and_drop rows) with
      | ok keyed =>
          rw [detect_last_eq_dup f1 rows keyed hd hk] at h
          exact Except.noConfusion h
      | error e2 =>
          rw [detect_last_eq_err f1 rows e2 hd hk] at h
          rw [detect_last_eq_err f2 rows e2 hd hk]
          exact h

end ETL
